import Mathlib

/-!
Verification of the `harness` crate (src/src/lib.rs): a byte-oriented
command-line harness that accumulates input bytes into lines, dispatches
completed lines to registered command handlers, and reports results to an
output sink.

Modelling conventions:
* Rust bytes (`u8`) are `Nat` values; only the comparison with the line
  terminator `10` (0x0A) matters to the control flow.
* `std::collections::HashMap<&str, Command>` is modelled as an association
  list with at most one entry per key; `insert` removes any prior entry for
  the key and appends the new one (HashMap iteration order is unspecified,
  so the list order is a representative choice).
* The generic writer `W: Write` is modelled by a state type `sigma` together
  with `write` and `flush` operations that update the state and may fail
  with an error of type `eps` (mirroring `std::io::Error`).  A Rust
  `write!` call mutates the writer and returns a `Result`, so each
  operation returns the new state paired with `Except eps Unit`.
* `std::str::from_utf8` is modelled by an executable UTF-8 decoder
  (`decodeUtf8`) implementing the standard UTF-8 validity rules that
  `from_utf8` checks: no overlong encodings, no surrogates, no code points
  above 0x10FFFF.
* Handlers `fn() -> Result<(), &'static str>` are `Unit → Except String Unit`.
-/

/-- A single operation observed on an output sink: a `write` of a payload
string, or a `flush`. -/
inductive IoOp where
  | wr (s : String)
  | fl
deriving DecidableEq

deriving instance DecidableEq for Except

/-- Model of a Rust `W: Write` writer: a state type with `write` and
`flush` operations that update the state and may fail. -/
structure WriterModel (σ ε : Type) where
  write : σ → String → σ × Except ε Unit
  flush : σ → σ × Except ε Unit

/-- A writer that always succeeds and logs every operation
(a `Vec<u8>` sink observed at operation granularity). -/
def sinkModel : WriterModel (List IoOp) Unit where
  write := fun w s => (w ++ [IoOp.wr s], Except.ok ())
  flush := fun w => (w ++ [IoOp.fl], Except.ok ())

/-- A writer with a budget: the first component is the number of operations
that will still succeed; once it reaches zero every operation fails.
Successful operations are logged in the second component. -/
def schedModel : WriterModel (Nat × List IoOp) Unit where
  write := fun w s =>
    match w.1 with
    | 0 => (w, Except.error ())
    | n + 1 => ((n, w.2 ++ [IoOp.wr s]), Except.ok ())
  flush := fun w =>
    match w.1 with
    | 0 => (w, Except.error ())
    | n + 1 => ((n, w.2 ++ [IoOp.fl]), Except.ok ())

/-- Translation of `struct Command`: help text and a no-argument handler
returning `Result<(), &'static str>`. -/
structure Command where
  help_text : String
  handler : Unit → Except String Unit

/-- Translation of `struct Harness`: the accumulation buffer `cmdline`
(bytes), the command registry, and the writer state. -/
structure Harness (σ : Type) where
  cmdline : List Nat
  commands : List (String × Command)
  writer : σ

/-- Translation of `Harness::new`. -/
def Harness.new (w : σ) : Harness σ :=
  { cmdline := [], commands := [], writer := w }

/-- Is `b` a UTF-8 continuation byte (0x80..=0xBF)? -/
def isCont (b : Nat) : Bool :=
  128 ≤ b && b ≤ 191

/-- Model of `std::str::from_utf8` applied to a byte list: decode the list
as UTF-8 into a list of scalar values rendered as `Char`, or `none` when
the bytes are not valid UTF-8.  Implements the standard UTF-8 validity
table (rejecting overlong forms, surrogates and values above 0x10FFFF),
which is exactly what `from_utf8` validates. -/
def decodeUtf8List : List Nat → Option (List Char)
  | [] => some []
  | b0 :: rest =>
    if b0 ≤ 127 then
      -- one-byte (ASCII) sequence
      (decodeUtf8List rest).map (fun cs => Char.ofNat b0 :: cs)
    else if b0 < 194 then
      -- 0x80..=0xC1: stray continuation byte or overlong two-byte lead
      none
    else if b0 ≤ 223 then
      -- two-byte sequence, lead 0xC2..=0xDF
      match rest with
      | b1 :: rest1 =>
        if isCont b1 then
          (decodeUtf8List rest1).map
            (fun cs => Char.ofNat ((b0 - 192) * 64 + (b1 - 128)) :: cs)
        else none
      | [] => none
    else if b0 ≤ 239 then
      -- three-byte sequence, lead 0xE0..=0xEF
      match rest with
      | b1 :: b2 :: rest2 =>
        let okB1 : Bool :=
          if b0 = 224 then 160 ≤ b1 && b1 ≤ 191      -- 0xE0: no overlongs
          else if b0 = 237 then 128 ≤ b1 && b1 ≤ 159 -- 0xED: no surrogates
          else isCont b1
        if okB1 && isCont b2 then
          (decodeUtf8List rest2).map
            (fun cs =>
              Char.ofNat ((b0 - 224) * 4096 + (b1 - 128) * 64 + (b2 - 128)) :: cs)
        else none
      | _ => none
    else if b0 ≤ 244 then
      -- four-byte sequence, lead 0xF0..=0xF4
      match rest with
      | b1 :: b2 :: b3 :: rest3 =>
        let okB1 : Bool :=
          if b0 = 240 then 144 ≤ b1 && b1 ≤ 191      -- 0xF0: no overlongs
          else if b0 = 244 then 128 ≤ b1 && b1 ≤ 143 -- 0xF4: max 0x10FFFF
          else isCont b1
        if okB1 && isCont b2 && isCont b3 then
          (decodeUtf8List rest3).map
            (fun cs =>
              Char.ofNat ((b0 - 240) * 262144 + (b1 - 128) * 4096 +
                (b2 - 128) * 64 + (b3 - 128)) :: cs)
        else none
      | _ => none
    else
      -- 0xF5..=0xFF: never valid
      none

/-- `from_utf8` producing a `String` (the decoded text). -/
def decodeUtf8 (bs : List Nat) : Option String :=
  (decodeUtf8List bs).map (fun cs => String.mk cs)

/-- The help line written for one command: translation of the format string
in `print_help` (`"Command: {} - {}\n"`). -/
def helpLine (cmd_name help_text : String) : String :=
  "Command: " ++ cmd_name ++ " - " ++ help_text ++ "\n"

/-- The iteration inside `print_help`: write one help line per registry
entry, short-circuiting on the first I/O error (`try!`). -/
def print_helpGo (wm : WriterModel σ ε) :
    List (String × Command) → σ → σ × Except ε Unit
  | [], w => (w, Except.ok ())
  | (cmd_name, cmd) :: rest, w =>
    match wm.write w (helpLine cmd_name cmd.help_text) with
    | (w1, Except.ok _) => print_helpGo wm rest w1
    | (w1, Except.error e) => (w1, Except.error e)

/-- Translation of `Harness::print_help`: writes one line per registered
command to the writer, returning the first write error if any. -/
def print_help (wm : WriterModel σ ε) (h : Harness σ) :
    Harness σ × Except ε Unit :=
  match print_helpGo wm h.commands h.writer with
  | (w, r) => ({ h with writer := w }, r)

/-- Translation of `Harness::prompt` on the writer state: write `"> "`,
then flush, propagating the first error (`try!` twice). -/
def promptGo (wm : WriterModel σ ε) (w : σ) : σ × Except ε Unit :=
  match wm.write w "> " with
  | (w1, Except.error e) => (w1, Except.error e)
  | (w1, Except.ok _) =>
    match wm.flush w1 with
    | (w2, Except.error e) => (w2, Except.error e)
    | (w2, Except.ok _) => (w2, Except.ok ())

/-- Translation of `Harness::prompt`. -/
def prompt (wm : WriterModel σ ε) (h : Harness σ) : Harness σ × Except ε Unit :=
  match promptGo wm h.writer with
  | (w, r) => ({ h with writer := w }, r)

/-- Translation of `HashMap::insert` on the association-list registry:
any prior entry under the key is removed and the new entry stored. -/
def mapInsert (m : List (String × Command)) (k : String) (v : Command) :
    List (String × Command) :=
  m.filter (fun p => p.1 != k) ++ [(k, v)]

/-- Translation of `HashMap::get` on the association-list registry. -/
def lookupCmd (m : List (String × Command)) (k : String) : Option Command :=
  (m.find? (fun p => p.1 == k)).map (fun p => p.2)

/-- Translation of `Harness::add_command`. -/
def add_command (h : Harness σ) (cmd_name help_text : String)
    (handler : Unit → Except String Unit) : Harness σ :=
  let c : Command := { help_text := help_text, handler := handler }
  { h with commands := mapInsert h.commands cmd_name c }

/-- Translation of `Harness::process`: swap out the accumulation buffer,
decode it as UTF-8, and dispatch (`"help"` short-circuit, registry lookup,
or the appropriate error). -/
def process (wm : WriterModel σ ε) (h : Harness σ) :
    Harness σ × Except String Unit :=
  -- `mem::swap` moves the accumulated bytes out (here: `h.cmdline` is the
  -- swapped-out `cmd_name`) and leaves the buffer empty in every branch.
  match decodeUtf8 h.cmdline with
  | none => ({ h with cmdline := [] }, Except.error "Command is invalid UTF-8")
  | some s =>
    if s = "help" then
      -- `self.print_help().and(Ok(())).or(Err("I/O error printing help"))`
      match print_help wm { h with cmdline := [] } with
      | (h2, Except.ok _) => (h2, Except.ok ())
      | (h2, Except.error _) => (h2, Except.error "I/O error printing help")
    else
      match lookupCmd h.commands s with
      | some cmd => ({ h with cmdline := [] }, cmd.handler ())
      | none => ({ h with cmdline := [] }, Except.error "Invalid command")

/-- Translation of `Harness::receive`. -/
def receive (wm : WriterModel σ ε) (h : Harness σ) (c : Nat) :
    Harness σ × Option (Except String Unit) :=
  if c = 10 then
    match process wm h with
    | (h1, r) => (h1, some r)
  else
    ({ h with cmdline := h.cmdline ++ [c] }, none)

/-- Translation of `Harness::receive_and_print`. -/
def receive_and_print (wm : WriterModel σ ε) (h : Harness σ) (c : Nat) :
    Harness σ × Except ε Unit :=
  match receive wm h c with
  | (h1, none) => (h1, Except.ok ())
  | (h1, some (Except.ok _)) => prompt wm h1
  | (h1, some (Except.error s)) =>
    match wm.write h1.writer ("Error: " ++ s ++ "\n") with
    | (w1, Except.error e) => ({ h1 with writer := w1 }, Except.error e)
    | (w1, Except.ok _) => prompt wm { h1 with writer := w1 }

/-- Feeding a byte sequence one byte at a time (the driving loop of the
tests and the example program), collecting the per-byte results. -/
def receiveAll (wm : WriterModel σ ε) (h : Harness σ) :
    List Nat → Harness σ × List (Option (Except String Unit))
  | [] => (h, [])
  | b :: bs =>
    match receive wm h b with
    | (h1, r) =>
      match receiveAll wm h1 bs with
      | (h2, rs) => (h2, r :: rs)

/-! ### Characterization lemmas -/

theorem receive_ne_terminator (wm : WriterModel σ ε) (h : Harness σ) (b : Nat)
    (hb : b ≠ 10) :
    receive wm h b = ({ h with cmdline := h.cmdline ++ [b] }, none) := by
  simp [receive, hb]

theorem receive_terminator (wm : WriterModel σ ε) (h : Harness σ) :
    receive wm h 10 = ((process wm h).1, some (process wm h).2) := by
  unfold receive
  simp only [if_pos rfl]
  cases hp : process wm h with
  | mk h1 r => simp

theorem process_invalid_utf8 (wm : WriterModel σ ε) (h : Harness σ)
    (hd : decodeUtf8 h.cmdline = none) :
    process wm h = ({ h with cmdline := [] }, Except.error "Command is invalid UTF-8") := by
  unfold process
  rw [hd]

theorem process_found (wm : WriterModel σ ε) (h : Harness σ) (s : String)
    (cmd : Command) (hd : decodeUtf8 h.cmdline = some s) (hs : s ≠ "help")
    (hl : lookupCmd h.commands s = some cmd) :
    process wm h = ({ h with cmdline := [] }, cmd.handler ()) := by
  unfold process
  rw [hd]
  simp only [if_neg hs]
  rw [hl]

theorem process_not_found (wm : WriterModel σ ε) (h : Harness σ) (s : String)
    (hd : decodeUtf8 h.cmdline = some s) (hs : s ≠ "help")
    (hl : lookupCmd h.commands s = none) :
    process wm h = ({ h with cmdline := [] }, Except.error "Invalid command") := by
  unfold process
  rw [hd]
  simp only [if_neg hs]
  rw [hl]

theorem process_help_ok (wm : WriterModel σ ε) (h : Harness σ) (w : σ)
    (hd : decodeUtf8 h.cmdline = some "help")
    (hpg : print_helpGo wm h.commands h.writer = (w, Except.ok ())) :
    process wm h = ({ h with cmdline := [], writer := w }, Except.ok ()) := by
  unfold process
  rw [hd]
  simp only [if_pos rfl, print_help]
  have hpg1 : print_helpGo wm ({ h with cmdline := [] } : Harness σ).commands
      ({ h with cmdline := [] } : Harness σ).writer = (w, Except.ok ()) := hpg
  rw [hpg1]
  simp

theorem process_help_err (wm : WriterModel σ ε) (h : Harness σ) (w : σ) (e : ε)
    (hd : decodeUtf8 h.cmdline = some "help")
    (hpg : print_helpGo wm h.commands h.writer = (w, Except.error e)) :
    process wm h =
      ({ h with cmdline := [], writer := w }, Except.error "I/O error printing help") := by
  unfold process
  rw [hd]
  simp only [if_pos rfl, print_help]
  have hpg1 : print_helpGo wm ({ h with cmdline := [] } : Harness σ).commands
      ({ h with cmdline := [] } : Harness σ).writer = (w, Except.error e) := hpg
  rw [hpg1]
  simp

theorem process_cmdline_empty (wm : WriterModel σ ε) (h : Harness σ) :
    (process wm h).1.cmdline = [] := by
  unfold process
  cases hd : decodeUtf8 h.cmdline with
  | none => rfl
  | some s =>
    by_cases hs : s = "help"
    · simp only [if_pos hs, print_help]
      cases hpg : print_helpGo wm ({ h with cmdline := [] } : Harness σ).commands
          ({ h with cmdline := [] } : Harness σ).writer with
      | mk w r => cases r <;> rfl
    · simp only [if_neg hs]
      cases hl : lookupCmd h.commands s <;> rfl

theorem process_commands_eq (wm : WriterModel σ ε) (h : Harness σ) :
    (process wm h).1.commands = h.commands := by
  unfold process
  cases hd : decodeUtf8 h.cmdline with
  | none => rfl
  | some s =>
    by_cases hs : s = "help"
    · simp only [if_pos hs, print_help]
      cases hpg : print_helpGo wm ({ h with cmdline := [] } : Harness σ).commands
          ({ h with cmdline := [] } : Harness σ).writer with
      | mk w r => cases r <;> rfl
    · simp only [if_neg hs]
      cases hl : lookupCmd h.commands s <;> rfl

theorem receiveAll_no_terminator (wm : WriterModel σ ε) (h : Harness σ)
    (bs : List Nat) (hbs : ∀ b ∈ bs, b ≠ 10) :
    receiveAll wm h bs =
      ({ h with cmdline := h.cmdline ++ bs }, bs.map (fun _ => none)) := by
  induction bs generalizing h with
  | nil => simp [receiveAll]
  | cons b rest ih =>
    unfold receiveAll
    rw [receive_ne_terminator wm h b (hbs b (by simp))]
    simp only
    rw [ih _ (fun x hx => hbs x (by simp [hx]))]
    simp

theorem sinkModel_write (w : List IoOp) (s : String) :
    sinkModel.write w s = (w ++ [IoOp.wr s], Except.ok ()) := rfl

theorem sinkModel_flush (w : List IoOp) :
    sinkModel.flush w = (w ++ [IoOp.fl], Except.ok ()) := rfl

theorem schedModel_write_zero (log : List IoOp) (s : String) :
    schedModel.write (0, log) s = ((0, log), Except.error ()) := rfl

theorem schedModel_write_succ (n : Nat) (log : List IoOp) (s : String) :
    schedModel.write (n + 1, log) s = ((n, log ++ [IoOp.wr s]), Except.ok ()) := rfl

theorem schedModel_flush_zero (log : List IoOp) :
    schedModel.flush (0, log) = ((0, log), Except.error ()) := rfl

theorem schedModel_flush_succ (n : Nat) (log : List IoOp) :
    schedModel.flush (n + 1, log) = ((n, log ++ [IoOp.fl]), Except.ok ()) := rfl

theorem print_helpGo_sink (cmds : List (String × Command)) (log : List IoOp) :
    print_helpGo sinkModel cmds log =
      (log ++ cmds.map (fun p => IoOp.wr (helpLine p.1 p.2.help_text)),
        Except.ok ()) := by
  induction cmds generalizing log with
  | nil => simp [print_helpGo]
  | cons p rest ih =>
    cases p with
    | mk nm c =>
      unfold print_helpGo
      rw [sinkModel_write]
      simp only
      rw [ih]
      simp

theorem print_helpGo_ok (wm : WriterModel σ ε)
    (hW : ∀ w s, (wm.write w s).2 = Except.ok ())
    (cmds : List (String × Command)) (w : σ) :
    (print_helpGo wm cmds w).2 = Except.ok () := by
  induction cmds generalizing w with
  | nil => simp [print_helpGo]
  | cons p rest ih =>
    cases p with
    | mk nm c =>
      unfold print_helpGo
      cases hw : wm.write w (helpLine nm c.help_text) with
      | mk w1 r =>
        have hr := hW w (helpLine nm c.help_text)
        rw [hw] at hr
        simp only at hr
        subst hr
        simp [ih]

theorem print_helpGo_sched_fail (cmds : List (String × Command)) (n : Nat)
    (log : List IoOp) (hn : n < cmds.length) :
    (print_helpGo schedModel cmds (n, log)).2 = Except.error () := by
  induction cmds generalizing n log with
  | nil => simp at hn
  | cons p rest ih =>
    cases p with
    | mk nm c =>
      match n with
      | 0 => simp [print_helpGo, schedModel]
      | m + 1 =>
        have hm : m < rest.length := by
          simpa using Nat.lt_of_succ_lt_succ hn
        simp only [print_helpGo, schedModel]
        exact ih m (log ++ [IoOp.wr (helpLine nm c.help_text)]) hm

theorem promptGo_sink (log : List IoOp) :
    promptGo sinkModel log = (log ++ [IoOp.wr "> ", IoOp.fl], Except.ok ()) := by
  simp [promptGo, sinkModel]

theorem promptGo_sched_zero (log : List IoOp) :
    promptGo schedModel (0, log) = ((0, log), Except.error ()) := rfl

theorem promptGo_sched_one (log : List IoOp) :
    promptGo schedModel (1, log) =
      ((0, log ++ [IoOp.wr "> "]), Except.error ()) := rfl

theorem promptGo_sched_ge2 (n : Nat) (log : List IoOp) :
    promptGo schedModel (n + 2, log) =
      ((n, log ++ [IoOp.wr "> ", IoOp.fl]), Except.ok ()) := by
  simp [promptGo, schedModel]

/-! ### Claim theorems -/

/-- C1: `receive` appends every non-terminator byte to the accumulation
buffer and returns `none`; on the terminator 0x0A it dispatches the
accumulated bytes via `process` (which leaves the buffer empty) and
returns `some` of the dispatch result; feeding any terminator-free byte
sequence one byte at a time returns `none` at every step and leaves the
buffer holding exactly the bytes received since the last terminator or
since creation. -/
theorem receive_accumulates_and_dispatches (wm : WriterModel σ ε) (h : Harness σ) :
    (∀ b, b ≠ 10 → receive wm h b = ({ h with cmdline := h.cmdline ++ [b] }, none)) ∧
    (receive wm h 10 = ((process wm h).1, some (process wm h).2) ∧
      (process wm h).1.cmdline = []) ∧
    (∀ bs, (∀ b ∈ bs, b ≠ 10) →
      receiveAll wm h bs =
        ({ h with cmdline := h.cmdline ++ bs }, bs.map (fun _ => none))) := by
  refine ⟨fun b hb => receive_ne_terminator wm h b hb,
    ⟨receive_terminator wm h, process_cmdline_empty wm h⟩,
    fun bs hbs => receiveAll_no_terminator wm h bs hbs⟩

theorem receive_accumulates_and_dispatches_witness :
    receiveAll sinkModel (Harness.new ([] : List IoOp)) [104, 105] =
      ({ cmdline := [104, 105], commands := [], writer := [] }, [none, none]) := by
  have hw := (receive_accumulates_and_dispatches sinkModel
    (Harness.new ([] : List IoOp))).2.2 [104, 105] (by decide)
  simpa [Harness.new] using hw

/-- C2: after every call to `process` (every completed line) the
accumulation buffer is empty, for every writer model and harness state,
whatever the dispatch outcome; consequently feeding a registered
success-handler command followed by the terminator twice in sequence
yields a success result both times. -/
theorem process_always_clears_buffer :
    (∀ (σ ε : Type) (wm : WriterModel σ ε) (h : Harness σ),
      (process wm h).1.cmdline = []) ∧
    ((receiveAll sinkModel
        (add_command (Harness.new []) "foo" "Does stuff." (fun _ => Except.ok ()))
        [102, 111, 111, 10, 102, 111, 111, 10]).2 =
      [none, none, none, some (Except.ok ()),
        none, none, none, some (Except.ok ())]) := by
  exact ⟨fun σ ε wm h => process_cmdline_empty wm h, by rfl⟩

/-- C3: when dispatch finds the decoded line in the registry, the
handler's result is returned verbatim (no argument is passed, `Ok` stays
`Ok`, and a failure message is passed through unchanged). -/
theorem handler_result_passed_verbatim (wm : WriterModel σ ε) (h : Harness σ)
    (s : String) (cmd : Command) (hd : decodeUtf8 h.cmdline = some s)
    (hs : s ≠ "help") (hl : lookupCmd h.commands s = some cmd) :
    process wm h = ({ h with cmdline := [] }, cmd.handler ()) :=
  process_found wm h s cmd hd hs hl

theorem handler_result_passed_verbatim_witness :
    process sinkModel
      { cmdline := [102, 111, 111],
        commands := [("foo",
          { help_text := "Does stuff.", handler := fun _ => Except.error "boom" })],
        writer := [] } =
      ({ cmdline := [],
         commands := [("foo",
           { help_text := "Does stuff.", handler := fun _ => Except.error "boom" })],
         writer := [] }, Except.error "boom") := by
  exact handler_result_passed_verbatim sinkModel
    { cmdline := [102, 111, 111],
      commands := [("foo",
        { help_text := "Does stuff.", handler := fun _ => Except.error "boom" })],
      writer := [] }
    "foo"
    { help_text := "Does stuff.", handler := fun _ => Except.error "boom" }
    (by rfl) (by decide) (by rfl)

/-- C5: when the accumulated bytes are not valid UTF-8, dispatch returns
the invalid-encoding error (with the buffer cleared and nothing else
changed), and in particular never the invalid-command error. -/
theorem invalid_utf8_reports_encoding_error (wm : WriterModel σ ε)
    (h : Harness σ) (hd : decodeUtf8 h.cmdline = none) :
    process wm h =
      ({ h with cmdline := [] }, Except.error "Command is invalid UTF-8") ∧
    (process wm h).2 ≠ Except.error "Invalid command" := by
  have hp := process_invalid_utf8 wm h hd
  refine ⟨hp, ?_⟩
  rw [hp]
  simp

theorem invalid_utf8_reports_encoding_error_witness :
    process sinkModel
      { cmdline := [128], commands := [], writer := ([] : List IoOp) } =
      ({ cmdline := [], commands := [], writer := [] },
        Except.error "Command is invalid UTF-8") := by
  exact (invalid_utf8_reports_encoding_error sinkModel _ (by rfl)).1

/-- C6: when the accumulated bytes decode to a string that is neither
`"help"` nor a registered command name, dispatch returns the
invalid-command error; the empty line decodes to `""` and is treated the
same way. -/
theorem unknown_command_reports_invalid_command (wm : WriterModel σ ε)
    (h : Harness σ) (s : String) (hd : decodeUtf8 h.cmdline = some s)
    (hs : s ≠ "help") (hl : lookupCmd h.commands s = none) :
    process wm h = ({ h with cmdline := [] }, Except.error "Invalid command") :=
  process_not_found wm h s hd hs hl

theorem unknown_command_reports_invalid_command_witness :
    process sinkModel (Harness.new ([] : List IoOp)) =
      ({ cmdline := [], commands := [], writer := [] },
        Except.error "Invalid command") := by
  exact unknown_command_reports_invalid_command sinkModel _ "" (by rfl)
    (by decide) (by rfl)

theorem process_help_sched_fail (h : Harness (Nat × List IoOp)) (n : Nat)
    (log : List IoOp) (hd : decodeUtf8 h.cmdline = some "help")
    (hw : h.writer = (n, log)) (hn : n < h.commands.length) :
    (process schedModel h).2 = Except.error "I/O error printing help" := by
  cases hpg : print_helpGo schedModel h.commands h.writer with
  | mk w r =>
    cases r with
    | error e => rw [process_help_err schedModel h w e hd hpg]
    | ok u =>
      have hfail := print_helpGo_sched_fail h.commands n log hn
      rw [← hw, hpg] at hfail
      cases u
      simp at hfail

/-- C4: dispatching a line that decodes exactly to `"help"` always renders
the built-in help listing and succeeds (for any writer whose writes
succeed), whatever the registry contains — a registered command named
`"help"` is shadowed during dispatch, and its registry entry is not
removed. -/
theorem help_shadows_registered_command (wm : WriterModel σ ε)
    (hW : ∀ w s, (wm.write w s).2 = Except.ok ()) (h : Harness σ)
    (hd : decodeUtf8 h.cmdline = some "help") :
    (process wm h).2 = Except.ok () ∧ (process wm h).1.commands = h.commands := by
  refine ⟨?_, process_commands_eq wm h⟩
  cases hpg : print_helpGo wm h.commands h.writer with
  | mk w r =>
    cases r with
    | ok u =>
      cases u
      rw [process_help_ok wm h w hd hpg]
    | error e =>
      have hok := print_helpGo_ok wm hW h.commands h.writer
      rw [hpg] at hok
      simp at hok

theorem help_shadows_registered_command_witness :
    (process sinkModel
      { cmdline := [104, 101, 108, 112],
        commands := [("help",
          { help_text := "h", handler := fun _ => Except.error "boom" })],
        writer := [] }).2 = Except.ok () := by
  exact (help_shadows_registered_command sinkModel (fun w s => rfl)
    { cmdline := [104, 101, 108, 112],
      commands := [("help",
        { help_text := "h", handler := fun _ => Except.error "boom" })],
      writer := [] } (by rfl)).1

/-- C7: dispatching `"help"` over an always-succeeding sink writes exactly
one line per registered command, in the form
`"Command: name - help_text\n"`, and succeeds (with zero commands
registered it writes nothing and still succeeds); when a write fails
while rendering the listing, the dedicated help-I/O error value is
returned instead of a raw I/O error. -/
theorem help_listing_output_and_io_error :
    (∀ h : Harness (List IoOp), decodeUtf8 h.cmdline = some "help" →
      process sinkModel h =
        ({ h with
            cmdline := [],
            writer := h.writer ++
              h.commands.map (fun p => IoOp.wr (helpLine p.1 p.2.help_text)) },
          Except.ok ())) ∧
    (∀ (h : Harness (Nat × List IoOp)) (n : Nat) (log : List IoOp),
      decodeUtf8 h.cmdline = some "help" → h.writer = (n, log) →
      n < h.commands.length →
      (process schedModel h).2 = Except.error "I/O error printing help") := by
  constructor
  · intro h hd
    exact process_help_ok sinkModel h _ hd (print_helpGo_sink h.commands h.writer)
  · intro h n log hd hw hn
    exact process_help_sched_fail h n log hd hw hn

theorem help_listing_output_and_io_error_witness :
    process sinkModel
      { cmdline := [104, 101, 108, 112], commands := [], writer := [] } =
      ({ cmdline := [], commands := [], writer := [] }, Except.ok ()) := by
  have hc := help_listing_output_and_io_error.1
    { cmdline := [104, 101, 108, 112], commands := [], writer := [] } (by rfl)
  simpa using hc

theorem filter_self_filter (p : (String × Command) → Bool)
    (l : List (String × Command)) : (l.filter p).filter p = l.filter p := by
  induction l with
  | nil => rfl
  | cons a l ih =>
    cases hpa : p a with
    | true => simp [List.filter_cons, hpa, ih]
    | false => simp [List.filter_cons, hpa, ih]

theorem mapInsert_mapInsert (m : List (String × Command)) (n : String)
    (c1 c2 : Command) : mapInsert (mapInsert m n c1) n c2 = mapInsert m n c2 := by
  unfold mapInsert
  rw [List.filter_append, filter_self_filter]
  simp

theorem lookupCmd_mapInsert_self (m : List (String × Command)) (n : String)
    (c : Command) : lookupCmd (mapInsert m n c) n = some c := by
  unfold lookupCmd mapInsert
  induction m with
  | nil => simp
  | cons q rest ih =>
    cases hq : (q.1 == n) with
    | true =>
      have hbne : (q.1 != n) = false := by simp [bne, hq]
      simp [List.filter_cons, hbne]
    | false =>
      have hbne : (q.1 != n) = true := by simp [bne, hq]
      simp [List.filter_cons, hbne, List.find?, hq]

/-- C9: registering a command under an already-registered name overwrites
the prior entry: the resulting harness is equal to the one obtained by the
second registration alone, and lookup under the name yields the second
help text and handler. -/
theorem add_command_overwrites_duplicate (h : Harness σ) (n t1 t2 : String)
    (f1 f2 : Unit → Except String Unit) :
    add_command (add_command h n t1 f1) n t2 f2 = add_command h n t2 f2 ∧
    lookupCmd (add_command (add_command h n t1 f1) n t2 f2).commands n =
      some { help_text := t2, handler := f2 } := by
  constructor
  · exact congrArg (fun cm => ({ h with commands := cm } : Harness σ))
      (mapInsert_mapInsert h.commands n
        { help_text := t1, handler := f1 } { help_text := t2, handler := f2 })
  · exact lookupCmd_mapInsert_self _ n _

/-- C10: the abstract error kinds are fixed static strings at the public
interface: invalid command is exactly "Invalid command", invalid encoding
is exactly "Command is invalid UTF-8", and a help I/O failure is exactly
"I/O error printing help"; `receive_and_print` accordingly writes the
exact line "Error: Invalid command\n" for an unknown command. -/
theorem error_messages_are_fixed_strings :
    (∀ (σ ε : Type) (wm : WriterModel σ ε) (h : Harness σ),
      decodeUtf8 h.cmdline = none →
      (process wm h).2 = Except.error "Command is invalid UTF-8") ∧
    (∀ (σ ε : Type) (wm : WriterModel σ ε) (h : Harness σ) (s : String),
      decodeUtf8 h.cmdline = some s → s ≠ "help" →
      lookupCmd h.commands s = none →
      (process wm h).2 = Except.error "Invalid command") ∧
    (∀ (h : Harness (Nat × List IoOp)) (n : Nat) (log : List IoOp),
      decodeUtf8 h.cmdline = some "help" → h.writer = (n, log) →
      n < h.commands.length →
      (process schedModel h).2 = Except.error "I/O error printing help") ∧
    (receive_and_print sinkModel (Harness.new []) 10 =
      ({ cmdline := [], commands := [],
         writer := [IoOp.wr "Error: Invalid command\n", IoOp.wr "> ", IoOp.fl] },
        Except.ok ())) := by
  refine ⟨?_, ?_, ?_, ?_⟩
  · intro σ ε wm h hd
    rw [process_invalid_utf8 wm h hd]
  · intro σ ε wm h s hd hs hl
    rw [process_not_found wm h s hd hs hl]
  · intro h n log hd hw hn
    exact process_help_sched_fail h n log hd hw hn
  · rfl

theorem error_messages_are_fixed_strings_witness :
    (process schedModel
      { cmdline := [104, 101, 108, 112],
        commands := [("a", { help_text := "b", handler := fun _ => Except.ok () })],
        writer := (0, []) }).2 = Except.error "I/O error printing help" := by
  exact error_messages_are_fixed_strings.2.2.1
    { cmdline := [104, 101, 108, 112],
      commands := [("a", { help_text := "b", handler := fun _ => Except.ok () })],
      writer := (0, []) }
    0 [] (by rfl) (by rfl) (by decide)

theorem prompt_eq (wm : WriterModel σ ε) (h : Harness σ) :
    prompt wm h =
      ({ h with writer := (promptGo wm h.writer).1 }, (promptGo wm h.writer).2) := by
  unfold prompt
  cases hp : promptGo wm h.writer with
  | mk w r => rfl

/-- C8: `receive_and_print` performs I/O exactly as the wrapper contract
says, observed on the budgeted writer: a buffered byte writes nothing and
succeeds; a successful dispatch writes only the prompt (`"> "` then a
flush) and returns the first failing operation's result; a failed
dispatch with message `s` writes `"Error: s\n"` and then the prompt, in
that order, skips the prompt exactly when the error write itself failed,
and returns the result of the first failing write. -/
theorem receive_and_print_io_behavior (h : Harness (Nat × List IoOp)) (b : Nat) :
    (b ≠ 10 → receive_and_print schedModel h b =
      ({ h with cmdline := h.cmdline ++ [b] }, Except.ok ())) ∧
    (∀ h1 n log, receive schedModel h b = (h1, some (Except.ok ())) →
      h1.writer = (n, log) →
      (2 ≤ n → receive_and_print schedModel h b =
        ({ h1 with writer := (n - 2, log ++ [IoOp.wr "> ", IoOp.fl]) },
          Except.ok ())) ∧
      (n = 1 → receive_and_print schedModel h b =
        ({ h1 with writer := (0, log ++ [IoOp.wr "> "]) }, Except.error ())) ∧
      (n = 0 → receive_and_print schedModel h b = (h1, Except.error ()))) ∧
    (∀ h1 s n log, receive schedModel h b = (h1, some (Except.error s)) →
      h1.writer = (n, log) →
      (3 ≤ n → receive_and_print schedModel h b =
        ({ h1 with writer := (n - 3,
            log ++ [IoOp.wr ("Error: " ++ s ++ "\n"), IoOp.wr "> ", IoOp.fl]) },
          Except.ok ())) ∧
      (n = 2 → receive_and_print schedModel h b =
        ({ h1 with writer := (0,
            log ++ [IoOp.wr ("Error: " ++ s ++ "\n"), IoOp.wr "> "]) },
          Except.error ())) ∧
      (n = 1 → receive_and_print schedModel h b =
        ({ h1 with writer := (0, log ++ [IoOp.wr ("Error: " ++ s ++ "\n")]) },
          Except.error ())) ∧
      (n = 0 → receive_and_print schedModel h b = (h1, Except.error ()))) := by
  refine ⟨?_, ?_, ?_⟩
  · intro hb
    unfold receive_and_print
    rw [receive_ne_terminator schedModel h b hb]
  · intro h1 n log hrecv hw
    have hwrap : receive_and_print schedModel h b = prompt schedModel h1 := by
      unfold receive_and_print
      rw [hrecv]
    refine ⟨?_, ?_, ?_⟩
    · intro hn
      obtain ⟨k, rfl⟩ : ∃ k, n = k + 2 := ⟨n - 2, by omega⟩
      rw [hwrap, prompt_eq, hw, promptGo_sched_ge2]
      simp
    · intro hn
      subst hn
      rw [hwrap, prompt_eq, hw, promptGo_sched_one]
    · intro hn
      subst hn
      rw [hwrap, prompt_eq, hw, promptGo_sched_zero]
      rw [← hw]
  · intro h1 s n log hrecv hw
    refine ⟨?_, ?_, ?_, ?_⟩
    · intro hn
      obtain ⟨k, rfl⟩ : ∃ k, n = k + 3 := ⟨n - 3, by omega⟩
      unfold receive_and_print
      rw [hrecv]
      simp only
      rw [hw, schedModel_write_succ]
      simp only
      rw [prompt_eq]
      simp only
      rw [promptGo_sched_ge2]
      simp
    · intro hn
      subst hn
      unfold receive_and_print
      rw [hrecv]
      simp only
      rw [hw, schedModel_write_succ]
      simp only
      rw [prompt_eq]
      simp only
      rw [promptGo_sched_one]
      simp
    · intro hn
      subst hn
      unfold receive_and_print
      rw [hrecv]
      simp only
      rw [hw, schedModel_write_succ]
      simp only
      rw [prompt_eq]
      simp only
      rw [promptGo_sched_zero]
    · intro hn
      subst hn
      unfold receive_and_print
      rw [hrecv]
      simp only
      rw [hw, schedModel_write_zero]
      simp only
      rw [← hw]

theorem receive_and_print_io_behavior_witness :
    receive_and_print schedModel (Harness.new (1, ([] : List IoOp))) 10 =
      ({ cmdline := [], commands := [],
         writer := (0, [IoOp.wr "Error: Invalid command\n"]) }, Except.error ()) := by
  have hc := ((receive_and_print_io_behavior (Harness.new (1, ([] : List IoOp))) 10).2.2
    { cmdline := [], commands := [], writer := (1, []) } "Invalid command" 1 []
    (by rfl) (by rfl)).2.2.1 (by rfl)
  exact hc
